import Mathlib

/-!
Verification of the Mumble audio protocol core of the
openclaw-mumble-extension repository.

The definitions below are a shallow embedding of `src/src/mumble-audio.ts`
(and, where a claim requires it, of the stale compiled
`src/dist/mumble-audio.js`).  Node `Buffer`s are modelled as `List Nat`
of byte values; JavaScript's coercion of an out-of-bounds `buffer[i]`
(which yields `undefined`, coerced to `0` by the bitwise operators) is
modelled by `jsGet`; Node's `Buffer.readUInt32BE`, which throws a
`RangeError` when fewer than 4 bytes are available at the offset, is
modelled as an `Option`.  Functions that can throw therefore return
`Option`, with `none` standing for the thrown exception.
-/

namespace MumbleAudio

/-- JavaScript indexed read `buffer[i]` as it behaves inside a bitwise
expression: an out-of-range read yields `undefined`, which the bitwise
operators coerce to `0`. -/
def jsGet (l : List Nat) (i : Nat) : Nat := l.getD i 0

/-- Node `buffer.readUInt32BE(offset)`: big-endian 32-bit read; throws
(`none`) when fewer than 4 bytes are available at `offset`. -/
def readUInt32BE (l : List Nat) (offset : Nat) : Option Nat :=
  if offset + 4 ≤ l.length then
    some ((((jsGet l offset <<< 8 ||| jsGet l (offset + 1)) <<< 8 |||
      jsGet l (offset + 2)) <<< 8) ||| jsGet l (offset + 3))
  else none

/-- The 4 bytes written by `buffer.writeUInt32BE(value, _)` for
`value < 2^32`. -/
def writeUInt32BEBytes (value : Nat) : List Nat :=
  [(value >>> 24) &&& 0xff, (value >>> 16) &&& 0xff,
   (value >>> 8) &&& 0xff, value &&& 0xff]

/-- The 2 bytes written by `buffer.writeUInt16BE(value, _)` for
`value < 2^16`. -/
def writeUInt16BEBytes (value : Nat) : List Nat :=
  [(value >>> 8) &&& 0xff, value &&& 0xff]

/-- The value denoted by a 4-byte big-endian sequence. -/
def beVal32 (l : List Nat) : Nat :=
  ((jsGet l 0 * 256 + jsGet l 1) * 256 + jsGet l 2) * 256 + jsGet l 3

/-- `readVarint` from `src/src/mumble-audio.ts` (Mumble's big-endian
varint, not LEB128).  Returns `(value, bytesRead)`; `none` models the
`RangeError` thrown by `readUInt32BE` in the 5-byte branch when fewer
than 5 bytes remain. -/
def readVarint (buffer : List Nat) (offset : Nat) : Option (Nat × Nat) :=
  let sub := buffer.drop offset
  if sub.length = 0 then some (0, 0)
  else
    let b0 := jsGet sub 0
    if b0 &&& 0x80 = 0 then
      some (b0, 1)
    else if b0 &&& 0xc0 = 0x80 then
      some (((b0 &&& 0x3f) <<< 8) ||| jsGet sub 1, 2)
    else if b0 &&& 0xe0 = 0xc0 then
      some (((b0 &&& 0x1f) <<< 16) ||| (jsGet sub 1 <<< 8) ||| jsGet sub 2, 3)
    else if b0 &&& 0xf0 = 0xe0 then
      some (((b0 &&& 0x0f) <<< 24) ||| (jsGet sub 1 <<< 16) |||
        (jsGet sub 2 <<< 8) ||| jsGet sub 3, 4)
    else if b0 &&& 0xfc = 0xf0 then
      (readUInt32BE sub 1).map (fun v => (v, 5))
    else
      some (0, 1)

/-- `writeVarint` from `src/src/mumble-audio.ts`.  For `value < 2^32`
this is exactly what the source produces (the final branch is
`writeUInt32BE`, whose 4 big-endian bytes are the ones listed). -/
def writeVarint (value : Nat) : List Nat :=
  if value < 0x80 then
    [value]
  else if value < 0x4000 then
    [0x80 ||| (value >>> 8), value &&& 0xff]
  else if value < 0x200000 then
    [0xc0 ||| (value >>> 16), (value >>> 8) &&& 0xff, value &&& 0xff]
  else if value < 0x10000000 then
    [0xe0 ||| (value >>> 24), (value >>> 16) &&& 0xff,
     (value >>> 8) &&& 0xff, value &&& 0xff]
  else
    0xf0 :: writeUInt32BEBytes value

/-- `writeVarint` from the stale compiled `src/dist/mumble-audio.js`:
a protobuf/LEB128-style encoder (`while (value > 0x7f) push low 7 bits
with continuation bit; value >>>= 7`).  Agrees with the JS code for
`value < 2^32`. -/
def distWriteVarint (value : Nat) : List Nat :=
  if h : value > 0x7f then
    ((value &&& 0x7f) ||| 0x80) :: distWriteVarint (value >>> 7)
  else
    [value &&& 0x7f]
termination_by value
decreasing_by
  simp only [Nat.shiftRight_eq_div_pow]
  exact Nat.div_lt_self (by omega) (by norm_num)

/-- `FullAudioPacket` from `src/src/mumble-audio.ts`. -/
structure FullAudioPacket where
  source : Nat
  codec : Nat
  target : Nat
  sequence : Nat
  audioData : List Nat
  isTerminator : Bool
deriving Repr, DecidableEq

/-- `AudioCodec.Opus` from `src/src/mumble-audio.ts`. -/
def OpusCodec : Nat := 4

/-- `parseAudioPacket` from `src/src/mumble-audio.ts`.  The outer
`Option` models an uncaught exception propagating out of a varint read
(`none` = throw); the inner `Option` is the function's own
`FullAudioPacket | null` result. -/
def parseAudioPacket (data : List Nat) : Option (Option FullAudioPacket) :=
  if data.length < 1 then some none
  else
    let header := jsGet data 0
    let codec := (header >>> 5) &&& 0x07
    let target := header &&& 0x1f
    match readVarint data 1 with
    | none => none
    | some session =>
      let offset := 1 + session.2
      match readVarint data offset with
      | none => none
      | some sequence =>
        let offset2 := offset + sequence.2
        if codec = OpusCodec then
          match readVarint data offset2 with
          | none => none
          | some opusHeader =>
            let offset3 := offset2 + opusHeader.2
            let isTerminator : Bool := opusHeader.1 &&& 0x2000 != 0
            let audioLength := opusHeader.1 &&& 0x1fff
            if data.length < offset3 + audioLength then
              some none
            else
              some (some ⟨session.1, codec, target, sequence.1,
                (data.drop offset3).take audioLength, isTerminator⟩)
        else
          some (some ⟨session.1, codec, target, sequence.1,
            data.drop offset2, false⟩)

/-- `createAudioPacket` from `src/src/mumble-audio.ts`. -/
def createAudioPacket (codec target sequence : Nat) (audioData : List Nat)
    (isTerminator : Bool) : List Nat :=
  let header := ((codec &&& 0x07) <<< 5) ||| (target &&& 0x1f)
  let sequenceVarint := writeVarint sequence
  if codec = OpusCodec then
    let lengthValue :=
      (audioData.length &&& 0x1fff) ||| (if isTerminator then 0x2000 else 0)
    header :: (sequenceVarint ++ writeVarint lengthValue ++ audioData)
  else
    header :: (sequenceVarint ++ audioData)

/-- The bytes `MumbleAudioStream.sendAudio` writes to the socket when the
stream's `sequence` field holds `seq`: a 6-byte prefix
(`writeUInt16BE(1, 0)`, `writeUInt32BE(packet.length, 2)`) followed by
the built packet. -/
def sendAudioBytes (seq : Nat) (audioData : List Nat) (codec target : Nat)
    (isTerminator : Bool) : List Nat :=
  let packet := createAudioPacket codec target seq audioData isTerminator
  writeUInt16BEBytes 1 ++ writeUInt32BEBytes packet.length ++ packet

/-- The `sequence` field a fresh `MumbleAudioStream` starts with
(`private sequence = 0`). -/
def initialSequence : Nat := 0

/-- Arguments of one `MumbleAudioStream.sendAudio` call. -/
structure SendArgs where
  audioData : List Nat
  codec : Nat
  target : Nat
  isTerminator : Bool

/-- The frames written by a run of `sendAudio` calls starting from
stream state `seq`: each call uses the current value of `this.sequence`
(post-increment) and leaves `seq + 1` for the next call. -/
def framesFrom (seq : Nat) : List SendArgs → List (List Nat)
  | [] => []
  | a :: rest =>
    sendAudioBytes seq a.audioData a.codec a.target a.isTerminator ::
      framesFrom (seq + 1) rest

/-- The stream's `sequence` field after a run of `sendAudio` calls
starting from state `seq`. -/
def seqAfter (seq : Nat) : List SendArgs → Nat
  | [] => seq
  | _ :: rest => seqAfter (seq + 1) rest

/-- Inserting a varint-encoded source/session id immediately after the
header byte of a built packet.  `createAudioPacket` omits the session id
(the server stamps it on the wire), while `parseAudioPacket` expects it;
this is the on-wire form of §6 of the spec. -/
def insertSource (source : Nat) (packet : List Nat) : List Nat :=
  match packet with
  | [] => []
  | h :: rest => h :: (writeVarint source ++ rest)

end MumbleAudio

namespace VoiceChat

/-- Modelled from the spec: configuration thresholds of the speech
segmentation state machine of `voice-chat-client.ts` (whose
implementation is not under `src/`; only its declaration
`src/dist/voice-chat-client.d.ts` is).  Spec §3: `minSpeechDurationMs`
(utterances shorter than this are discarded without transcription) and
`silenceTimeoutMs`. -/
structure SegmenterConfig where
  minSpeechDurationMs : Nat
  silenceTimeoutMs : Nat

/-- Modelled from the spec: a `SpeakerSession` owns an append-only PCM
accumulator and an armed/disarmed silence timer; `accumulating = false`
is the `Idle` state, `accumulating = true` the `Accumulating` state
(spec §3, §4.5). -/
structure SpeakerSession where
  accumulating : Bool
  pcm : List Int
  timerArmed : Bool
deriving Repr, DecidableEq

/-- One decoded incoming audio packet as seen by the segmenter: its PCM
samples and the terminator flag of the wire packet. -/
structure IncomingAudio where
  pcm : List Int
  isTerminator : Bool

/-- Duration in milliseconds of accumulated 48 kHz mono PCM
(48 samples per millisecond). -/
def pcmDurationMs (pcm : List Int) : Nat := pcm.length / 48

/-- Modelled from the spec: the result of a flush.  `forwarded` records
whether the flushed audio is handed to transcription; spec §4.5: "On
flush: if accumulated duration < `minSpeechDurationMs`, discard silently
(no transcription call); otherwise hand the buffer to the
orchestrator." -/
structure FlushOutcome where
  flushedPcm : List Int
  forwarded : Bool
deriving Repr, DecidableEq

/-- Modelled from the spec: flushing an accumulated buffer.  The flush
itself is unconditional; only forwarding is gated by the duration
threshold. -/
def flushSession (cfg : SegmenterConfig) (pcm : List Int) : FlushOutcome :=
  { flushedPcm := pcm,
    forwarded := decide (cfg.minSpeechDurationMs ≤ pcmDurationMs pcm) }

/-- Modelled from the spec: `handleAudioPacket` of `voice-chat-client.ts`
(implementation absent from `src/`), spec §4.5: first packet from a
source creates the session, appends PCM and arms the silence timer; a
subsequent packet while `Accumulating` appends PCM and re-arms the
timer; a packet with the terminator flag set appends its PCM, cancels
the silence timer and flushes immediately, the duration check gating
only the forwarding decision.  Returns the new session state and the
flush outcome, when a flush happened. -/
def handleAudioPacket (cfg : SegmenterConfig) (s : SpeakerSession)
    (a : IncomingAudio) : SpeakerSession × Option FlushOutcome :=
  let buf := (if s.accumulating then s.pcm else []) ++ a.pcm
  if a.isTerminator then
    (⟨false, [], false⟩, some (flushSession cfg buf))
  else
    (⟨true, buf, true⟩, none)

end VoiceChat

/-!  ## Arithmetic helper lemmas  -/

namespace MumbleAudio

theorem lor_eq_add {k : Nat} (a b : Nat) (hb : b < 2^k) (ha : 2^k ∣ a) :
    a ||| b = a + b := by
  obtain ⟨c, rfl⟩ := ha
  exact (Nat.mul_add_lt_is_or hb c).symm

theorem and_255 (n : Nat) : n &&& 255 = n % 256 := by
  have h := Nat.and_pow_two_sub_one_eq_mod n 8
  norm_num at h; exact h

theorem and_31 (n : Nat) : n &&& 31 = n % 32 := by
  have h := Nat.and_pow_two_sub_one_eq_mod n 5
  norm_num at h; exact h

theorem and_7 (n : Nat) : n &&& 7 = n % 8 := by
  have h := Nat.and_pow_two_sub_one_eq_mod n 3
  norm_num at h; exact h

theorem and_8191 (n : Nat) : n &&& 8191 = n % 8192 := by
  have h := Nat.and_pow_two_sub_one_eq_mod n 13
  norm_num at h; exact h

theorem and_8192_of_lt (n : Nat) (h : n < 8192) : n &&& 8192 = 0 := by
  have h2 : n &&& 2^13 = (n.testBit 13).toNat * 2^13 := Nat.and_two_pow n 13
  rw [Nat.testBit_lt_two_pow (by omega)] at h2
  simpa using h2

theorem and_8192_of_add (n : Nat) (h : n < 8192) : (8192 + n) &&& 8192 = 8192 := by
  have h2 : (8192 + n) &&& 2^13 = ((8192 + n).testBit 13).toNat * 2^13 :=
    Nat.and_two_pow _ 13
  have h3 : (8192 + n).testBit 13 = true := by
    rw [Nat.testBit_to_div_mod]
    norm_num
    omega
  rw [h3] at h2
  norm_num at h2 ⊢
  exact h2

theorem b2facts : ∀ h : Nat, h < 64 →
    ((128+h) &&& 0x80 ≠ 0 ∧ (128+h) &&& 0xc0 = 0x80 ∧ (128+h) &&& 0x3f = h) := by
  decide

theorem b3facts : ∀ h : Nat, h < 32 →
    ((192+h) &&& 0x80 ≠ 0 ∧ (192+h) &&& 0xc0 ≠ 0x80 ∧ (192+h) &&& 0xe0 = 0xc0 ∧
     (192+h) &&& 0x1f = h) := by
  decide

theorem b4facts : ∀ h : Nat, h < 16 →
    ((224+h) &&& 0x80 ≠ 0 ∧ (224+h) &&& 0xc0 ≠ 0x80 ∧ (224+h) &&& 0xe0 ≠ 0xc0 ∧
     (224+h) &&& 0xf0 = 0xe0 ∧ (224+h) &&& 0x0f = h) := by
  decide

set_option maxRecDepth 4096 in
theorem byteFacts : ∀ b : Nat, b < 256 → b &&& 0xfc = 0xf0 →
    (b &&& 0x80 ≠ 0 ∧ b &&& 0xc0 ≠ 0x80 ∧ b &&& 0xe0 ≠ 0xc0 ∧ b &&& 0xf0 ≠ 0xe0) := by
  decide

/-- `readVarint` only looks at the buffer from `offset` on. -/
theorem readVarint_eq_drop (buffer : List Nat) (offset : Nat) :
    readVarint buffer offset = readVarint (buffer.drop offset) 0 := by
  simp [readVarint]

theorem beVal32_writeUInt32BEBytes (x : Nat) (hx : x < 2^32) :
    beVal32 (writeUInt32BEBytes x) = x := by
  have hdiv24 : x >>> 24 = x / 16777216 := by rw [Nat.shiftRight_eq_div_pow]
  have hdiv16 : x >>> 16 = x / 65536 := by rw [Nat.shiftRight_eq_div_pow]
  have hdiv8 : x >>> 8 = x / 256 := by rw [Nat.shiftRight_eq_div_pow]
  simp only [beVal32, writeUInt32BEBytes, jsGet, List.getD_cons_zero,
    List.getD_cons_succ, and_255, hdiv24, hdiv16, hdiv8]
  omega
theorem readVarint_writeVarint_concat (x : Nat) (hx : x < 2^32) (rest : List Nat) :
    readVarint (writeVarint x ++ rest) 0 = some (x, (writeVarint x).length) := by
  by_cases h1 : x < 0x80
  · simp only [writeVarint, if_pos h1, List.cons_append, List.nil_append]
    simp only [readVarint, List.drop_zero, List.length_cons, jsGet,
      List.getD_cons_zero, List.getD_cons_succ, List.nil_append]
    have hx80 : x &&& 0x80 = 0 := by
      have h2 : x &&& 128 = (x.testBit 7).toNat * 2^7 := Nat.and_two_pow x 7
      rw [Nat.testBit_lt_two_pow (by omega)] at h2
      simpa using h2
    simp [hx80]
  by_cases h2 : x < 0x4000
  · have hdiv : x >>> 8 = x / 256 := by rw [Nat.shiftRight_eq_div_pow]
    have hq : x / 256 < 64 := by omega
    have hb0 : 0x80 ||| (x >>> 8) = 128 + x / 256 := by
      rw [hdiv]
      exact lor_eq_add (k := 7) 128 (x/256) (by omega) ⟨1, by norm_num⟩
    obtain ⟨hA, hB, hC⟩ := b2facts (x/256) hq
    simp only [writeVarint, if_neg h1, if_pos h2, List.cons_append]
    simp only [readVarint, List.drop_zero, List.length_cons, jsGet,
      List.getD_cons_zero, List.getD_cons_succ, List.nil_append, hb0]
    rw [if_neg (by omega), if_neg hA, if_pos hB]
    simp only [hC, and_255, Nat.shiftLeft_eq]
    norm_num
    rw [lor_eq_add (k := 8) (x/256 * 256) (x % 256) (by omega) ⟨x/256, by ring⟩]
    omega
  by_cases h3 : x < 0x200000
  · have hdiv : x >>> 16 = x / 65536 := by rw [Nat.shiftRight_eq_div_pow]
    have hdiv8 : x >>> 8 = x / 256 := by rw [Nat.shiftRight_eq_div_pow]
    have hq : x / 65536 < 32 := by omega
    have hb0 : 0xc0 ||| (x >>> 16) = 192 + x / 65536 := by
      rw [hdiv]
      exact lor_eq_add (k := 6) 192 (x/65536) (by omega) ⟨3, by norm_num⟩
    obtain ⟨hA, hB, hC, hD⟩ := b3facts (x/65536) hq
    simp only [writeVarint, if_neg h1, if_neg h2, if_pos h3, List.cons_append]
    simp only [readVarint, List.drop_zero, List.length_cons, jsGet,
      List.getD_cons_zero, List.getD_cons_succ, List.nil_append, hb0]
    rw [if_neg (by omega), if_neg hA, if_neg hB, if_pos hC]
    simp only [hD, and_255, Nat.shiftLeft_eq, hdiv8]
    norm_num
    rw [lor_eq_add (k := 16) (x/65536 * 65536) (x/256 % 256 * 256)
      (by omega) ⟨x/65536, by ring⟩]
    rw [lor_eq_add (k := 8) (x/65536 * 65536 + x/256 % 256 * 256) (x % 256)
      (by omega) ⟨x/65536*256 + x/256 % 256, by ring⟩]
    omega
  by_cases h4 : x < 0x10000000
  · have hdiv : x >>> 24 = x / 16777216 := by rw [Nat.shiftRight_eq_div_pow]
    have hdiv16 : x >>> 16 = x / 65536 := by rw [Nat.shiftRight_eq_div_pow]
    have hdiv8 : x >>> 8 = x / 256 := by rw [Nat.shiftRight_eq_div_pow]
    have hq : x / 16777216 < 16 := by omega
    have hb0 : 0xe0 ||| (x >>> 24) = 224 + x / 16777216 := by
      rw [hdiv]
      exact lor_eq_add (k := 5) 224 (x/16777216) (by omega) ⟨7, by norm_num⟩
    obtain ⟨hA, hB, hC, hD, hE⟩ := b4facts (x/16777216) hq
    simp only [writeVarint, if_neg h1, if_neg h2, if_neg h3, if_pos h4, List.cons_append]
    simp only [readVarint, List.drop_zero, List.length_cons, jsGet,
      List.getD_cons_zero, List.getD_cons_succ, List.nil_append, hb0]
    rw [if_neg (by omega), if_neg hA, if_neg hB, if_neg hC, if_pos hD]
    simp only [hE, and_255, Nat.shiftLeft_eq, hdiv16, hdiv8]
    norm_num
    rw [lor_eq_add (k := 24) (x/16777216 * 16777216) (x/65536 % 256 * 65536)
      (by omega) ⟨x/16777216, by ring⟩]
    rw [lor_eq_add (k := 16) (x/16777216 * 16777216 + x/65536 % 256 * 65536)
      (x/256 % 256 * 256) (by omega) ⟨x/16777216*256 + x/65536 % 256, by ring⟩]
    rw [lor_eq_add (k := 8)
      (x/16777216 * 16777216 + x/65536 % 256 * 65536 + x/256 % 256 * 256)
      (x % 256) (by omega)
      ⟨(x/16777216*256 + x/65536 % 256)*256 + x/256 % 256, by ring⟩]
    omega
  · have hdiv24 : x >>> 24 = x / 16777216 := by rw [Nat.shiftRight_eq_div_pow]
    have hdiv16 : x >>> 16 = x / 65536 := by rw [Nat.shiftRight_eq_div_pow]
    have hdiv8 : x >>> 8 = x / 256 := by rw [Nat.shiftRight_eq_div_pow]
    simp only [writeVarint, if_neg h1, if_neg h2, if_neg h3, if_neg h4,
      writeUInt32BEBytes, List.cons_append]
    simp only [readVarint, List.drop_zero, List.length_cons, jsGet,
      List.getD_cons_zero, List.getD_cons_succ, List.nil_append]
    rw [if_neg (by omega), if_neg (by decide), if_neg (by decide),
      if_neg (by decide), if_neg (by decide), if_pos (by decide)]
    simp only [readUInt32BE, List.length_cons, jsGet,
      List.getD_cons_zero, List.getD_cons_succ]
    rw [if_pos (by omega)]
    simp only [and_255, Nat.shiftLeft_eq, hdiv24, hdiv16, hdiv8, Option.map_some]
    norm_num
    have e24 : x / 16777216 % 256 = x / 16777216 := Nat.mod_eq_of_lt (by omega)
    rw [e24]
    rw [lor_eq_add (k := 8) (x/16777216 * 256) (x/65536 % 256)
      (by omega) ⟨x/16777216, by ring⟩]
    rw [lor_eq_add (k := 8) ((x/16777216 * 256 + x/65536 % 256) * 256)
      (x/256 % 256) (by omega) ⟨x/16777216*256 + x/65536 % 256, by ring⟩]
    rw [lor_eq_add (k := 8) (((x/16777216 * 256 + x/65536 % 256) * 256 + x/256 % 256) * 256)
      (x % 256) (by omega)
      ⟨(x/16777216*256 + x/65536 % 256)*256 + x/256 % 256, by ring⟩]
    omega

/-- `readVarint` at an arbitrary offset, when the bytes from that offset
start with `writeVarint x`. -/
theorem readVarint_at (buffer : List Nat) (offset : Nat) (x : Nat)
    (hx : x < 2^32) (rest : List Nat)
    (h : buffer.drop offset = writeVarint x ++ rest) :
    readVarint buffer offset = some (x, (writeVarint x).length) := by
  rw [readVarint_eq_drop, h]
  exact readVarint_writeVarint_concat x hx rest

/-- C2: for every non-negative integer below `2^32`, decoding the bytes
produced by `writeVarint` returns the original value, with `bytesRead`
equal to the length of the produced buffer. -/
theorem varint_roundtrip (x : Nat) (hx : x < 2^32) :
    readVarint (writeVarint x) 0 = some (x, (writeVarint x).length) := by
  have h := readVarint_writeVarint_concat x hx []
  simpa using h

/-- Witness for `varint_roundtrip` at `x = 300`. -/
theorem varint_roundtrip_witness :
    readVarint (writeVarint 300) 0 = some (300, (writeVarint 300).length) :=
  varint_roundtrip 300 (by norm_num)

/-- C3: `writeVarint` produces 1 byte for values below 0x80; 2 bytes with
leading prefix `10` below 0x4000; 3 bytes with prefix `110` below
0x200000; 4 bytes with prefix `1110` below 0x10000000; and otherwise 5
bytes: the prefix byte 0xF0 followed by the value as 4 big-endian bytes;
the nine boundary values select the documented widths. -/
theorem writeVarint_widths (x : Nat) (hx : x < 2^32) :
    (x < 0x80 → writeVarint x = [x]) ∧
    (0x80 ≤ x → x < 0x4000 →
      (writeVarint x).length = 2 ∧ jsGet (writeVarint x) 0 &&& 0xc0 = 0x80) ∧
    (0x4000 ≤ x → x < 0x200000 →
      (writeVarint x).length = 3 ∧ jsGet (writeVarint x) 0 &&& 0xe0 = 0xc0) ∧
    (0x200000 ≤ x → x < 0x10000000 →
      (writeVarint x).length = 4 ∧ jsGet (writeVarint x) 0 &&& 0xf0 = 0xe0) ∧
    (0x10000000 ≤ x →
      writeVarint x = 0xf0 :: writeUInt32BEBytes x ∧
      beVal32 (writeUInt32BEBytes x) = x) ∧
    ((writeVarint 0).length = 1 ∧ (writeVarint 127).length = 1 ∧
     (writeVarint 128).length = 2 ∧ (writeVarint 16383).length = 2 ∧
     (writeVarint 16384).length = 3 ∧ (writeVarint 2097151).length = 3 ∧
     (writeVarint 2097152).length = 4 ∧ (writeVarint 268435455).length = 4 ∧
     (writeVarint 268435456).length = 5) := by
  refine ⟨?_, ?_, ?_, ?_, ?_, by decide⟩
  · intro h
    simp [writeVarint, h]
  · intro hlo hhi
    have hdiv : x >>> 8 = x / 256 := by rw [Nat.shiftRight_eq_div_pow]
    have hq : x / 256 < 64 := by omega
    have hb0 : 0x80 ||| (x >>> 8) = 128 + x / 256 := by
      rw [hdiv]
      exact lor_eq_add (k := 7) 128 (x/256) (by omega) ⟨1, by norm_num⟩
    simp only [writeVarint, if_neg (by omega : ¬ x < 0x80), if_pos hhi]
    refine ⟨by simp, ?_⟩
    simp only [jsGet, List.getD_cons_zero, hb0]
    exact (b2facts (x/256) hq).2.1
  · intro hlo hhi
    have hdiv : x >>> 16 = x / 65536 := by rw [Nat.shiftRight_eq_div_pow]
    have hq : x / 65536 < 32 := by omega
    have hb0 : 0xc0 ||| (x >>> 16) = 192 + x / 65536 := by
      rw [hdiv]
      exact lor_eq_add (k := 6) 192 (x/65536) (by omega) ⟨3, by norm_num⟩
    simp only [writeVarint, if_neg (by omega : ¬ x < 0x80),
      if_neg (by omega : ¬ x < 0x4000), if_pos hhi]
    refine ⟨by simp, ?_⟩
    simp only [jsGet, List.getD_cons_zero, hb0]
    exact (b3facts (x/65536) hq).2.2.1
  · intro hlo hhi
    have hdiv : x >>> 24 = x / 16777216 := by rw [Nat.shiftRight_eq_div_pow]
    have hq : x / 16777216 < 16 := by omega
    have hb0 : 0xe0 ||| (x >>> 24) = 224 + x / 16777216 := by
      rw [hdiv]
      exact lor_eq_add (k := 5) 224 (x/16777216) (by omega) ⟨7, by norm_num⟩
    simp only [writeVarint, if_neg (by omega : ¬ x < 0x80),
      if_neg (by omega : ¬ x < 0x4000), if_neg (by omega : ¬ x < 0x200000),
      if_pos hhi]
    refine ⟨by simp, ?_⟩
    simp only [jsGet, List.getD_cons_zero, hb0]
    exact (b4facts (x/16777216) hq).2.2.2.1
  · intro h
    refine ⟨?_, beVal32_writeUInt32BEBytes x hx⟩
    simp only [writeVarint, if_neg (by omega : ¬ x < 0x80),
      if_neg (by omega : ¬ x < 0x4000), if_neg (by omega : ¬ x < 0x200000),
      if_neg (by omega : ¬ x < 0x10000000)]

/-- Witness for `writeVarint_widths` at `x = 300`. -/
theorem writeVarint_widths_witness :
    (writeVarint 300).length = 2 ∧ jsGet (writeVarint 300) 0 &&& 0xc0 = 0x80 :=
  (writeVarint_widths 300 (by norm_num)).2.1 (by norm_num) (by norm_num)

/-- C5: the varint encoder of `src/src/mumble-audio.ts` and the one in
the stale compiled `src/dist/mumble-audio.js` disagree already at 128:
the source emits the big-endian 2-byte form `[0x80, 0x80]` while the
dist module emits the LEB128 form `[0x80, 0x01]`. -/
theorem dist_varint_diverges_at_128 :
    writeVarint 128 = [0x80, 0x80] ∧ distWriteVarint 128 = [0x80, 0x01] := by
  refine ⟨by decide, ?_⟩
  simp [distWriteVarint]
  decide

/-- C4 counterexample: on the 1-byte buffer `[0x80]` the decoder reports
`bytesRead = 2`, which exceeds the single byte available from offset 0
(the second byte is read past the end of the buffer and coerced to 0). -/
theorem readVarint_overrun :
    readVarint [0x80] 0 = some (0, 2) ∧ ¬ (2 ≤ ([0x80] : List Nat).length) := by
  decide

/-- C4 amended: `readVarint` returns `(0, 0)` on an empty view, reports
at most 5 bytes read (though possibly more than are available, missing
bytes being read as zero), and is total except precisely when the
leading byte carries the 5-byte prefix `0xF0..0xF3` and fewer than 5
bytes remain, where the underlying 4-byte read throws. -/
theorem readVarint_total_amended (buffer : List Nat) (offset : Nat)
    (hbytes : ∀ b ∈ buffer, b < 256) :
    (buffer.drop offset = [] → readVarint buffer offset = some (0, 0)) ∧
    (∀ v n, readVarint buffer offset = some (v, n) → n ≤ 5) ∧
    (readVarint buffer offset = none ↔
      1 ≤ (buffer.drop offset).length ∧ (buffer.drop offset).length < 5 ∧
      jsGet (buffer.drop offset) 0 &&& 0xfc = 0xf0) := by
  rw [readVarint_eq_drop]
  rcases hsub : buffer.drop offset with _ | ⟨b, rest⟩
  · refine ⟨fun _ => by simp [readVarint], ?_, by simp [readVarint, jsGet]⟩
    intro v n h
    have h2 : (some (0, 0) : Option (Nat × Nat)) = some (v, n) := h
    simp only [Option.some.injEq, Prod.mk.injEq] at h2
    omega
  · have hb : b < 256 :=
      hbytes b (List.mem_of_mem_drop (hsub ▸ List.mem_cons_self b rest))
    have hfc : ∀ hc : b &&& 0xfc = 0xf0,
        b &&& 0x80 ≠ 0 ∧ b &&& 0xc0 ≠ 0x80 ∧ b &&& 0xe0 ≠ 0xc0 ∧
        b &&& 0xf0 ≠ 0xe0 := fun hc => byteFacts b hb hc
    simp only [readVarint, List.drop_zero, List.length_cons, jsGet,
      List.getD_cons_zero]
    rw [if_neg (by omega)]
    refine ⟨by simp, ?_, ?_⟩
    · intro v n h
      by_cases h1 : b &&& 0x80 = 0
      · rw [if_pos h1] at h
        simp only [Option.some.injEq, Prod.mk.injEq] at h
        omega
      rw [if_neg h1] at h
      by_cases h2 : b &&& 0xc0 = 0x80
      · rw [if_pos h2] at h
        simp only [Option.some.injEq, Prod.mk.injEq] at h
        omega
      rw [if_neg h2] at h
      by_cases h3 : b &&& 0xe0 = 0xc0
      · rw [if_pos h3] at h
        simp only [Option.some.injEq, Prod.mk.injEq] at h
        omega
      rw [if_neg h3] at h
      by_cases h4 : b &&& 0xf0 = 0xe0
      · rw [if_pos h4] at h
        simp only [Option.some.injEq, Prod.mk.injEq] at h
        omega
      rw [if_neg h4] at h
      by_cases h5 : b &&& 0xfc = 0xf0
      · rw [if_pos h5] at h
        rcases hread : readUInt32BE (b :: rest) 1 with _ | w
        · rw [hread] at h
          exact Option.noConfusion h
        · rw [hread] at h
          simp only [Option.map_some', Option.some.injEq, Prod.mk.injEq] at h
          omega
      · rw [if_neg h5] at h
        simp only [Option.some.injEq, Prod.mk.injEq] at h
        omega
    · by_cases h1 : b &&& 0x80 = 0
      · rw [if_pos h1]
        simp only [false_iff, reduceCtorEq]
        intro ⟨_, _, hc⟩
        exact (hfc hc).1 h1
      rw [if_neg h1]
      by_cases h2 : b &&& 0xc0 = 0x80
      · rw [if_pos h2]
        simp only [false_iff, reduceCtorEq]
        intro ⟨_, _, hc⟩
        exact (hfc hc).2.1 h2
      rw [if_neg h2]
      by_cases h3 : b &&& 0xe0 = 0xc0
      · rw [if_pos h3]
        simp only [false_iff, reduceCtorEq]
        intro ⟨_, _, hc⟩
        exact (hfc hc).2.2.1 h3
      rw [if_neg h3]
      by_cases h4 : b &&& 0xf0 = 0xe0
      · rw [if_pos h4]
        simp only [false_iff, reduceCtorEq]
        intro ⟨_, _, hc⟩
        exact (hfc hc).2.2.2 h4
      rw [if_neg h4]
      by_cases h5 : b &&& 0xfc = 0xf0
      · rw [if_pos h5]
        simp only [readUInt32BE, List.length_cons]
        by_cases hlen : 1 + 4 ≤ rest.length + 1
        · rw [if_pos hlen]
          simp only [Option.map_some']
          constructor
          · intro hcontr
            exact absurd hcontr (by simp)
          · intro hcontr
            omega
        · rw [if_neg hlen]
          simp only [Option.map_none']
          constructor
          · intro _
            exact ⟨by omega, by omega, h5⟩
          · intro _
            trivial
      · rw [if_neg h5]
        simp only [false_iff, reduceCtorEq]
        intro ⟨_, _, hc⟩
        exact h5 hc

/-- Witness for `readVarint_total_amended` on the truncated 5-byte-form
buffer `[0xF0]`. -/
theorem readVarint_total_amended_witness : readVarint [0xF0] 0 = none :=
  (readVarint_total_amended [0xF0] 0 (by decide)).2.2.mpr (by decide)

/-- C6: when the header selects the Opus codec, the three varints parse,
and the declared payload length (low 13 bits of the length varint)
exceeds the bytes remaining after it, `parseAudioPacket` returns the
incomplete-packet result (`null`, i.e. `some none`): no packet with a
truncated payload, and no exception. -/
theorem parse_opus_incomplete (data : List Nat) (sv n1 qv n2 Lv n3 : Nat)
    (hlen : 1 ≤ data.length)
    (hcodec : ((jsGet data 0) >>> 5) &&& 0x07 = OpusCodec)
    (hs : readVarint data 1 = some (sv, n1))
    (hq : readVarint data (1 + n1) = some (qv, n2))
    (hL : readVarint data (1 + n1 + n2) = some (Lv, n3))
    (hover : data.length < 1 + n1 + n2 + n3 + (Lv &&& 0x1fff)) :
    parseAudioPacket data = some none := by
  simp only [parseAudioPacket, hcodec, hs, hq, hL]
  rw [if_neg (by omega)]
  simp only [if_true]
  rw [if_pos (by omega)]

/-- Witness for `parse_opus_incomplete`: an Opus frame declaring a
5-byte payload with only 1 byte remaining. -/
theorem parse_opus_incomplete_witness :
    parseAudioPacket [0x80, 0x00, 0x00, 0x05, 0xAA] = some none :=
  parse_opus_incomplete [0x80, 0x00, 0x00, 0x05, 0xAA] 0 1 0 1 5 1
    (by decide) (by decide) (by decide) (by decide) (by decide) (by decide)

/-- C8 counterexample: `[0x00, 0xF0]` selects codec 0 (not Opus), but
`parseAudioPacket` throws (the session varint's leading byte has the
5-byte prefix with only 1 byte left, so `readUInt32BE` raises) instead
of returning a packet with the remainder as `audioData`. -/
theorem parse_other_codec_throws :
    parseAudioPacket [0x00, 0xF0] = none := by decide

/-- C8 amended: for a buffer whose header selects a non-Opus codec,
provided the session and sequence varint reads do not throw,
`parseAudioPacket` returns a packet whose `audioData` is exactly the
remainder of the buffer after the two varints, with `isTerminator`
false. -/
theorem parse_other_codec (data : List Nat) (sv n1 qv n2 : Nat)
    (hlen : 1 ≤ data.length)
    (hcodec : ((jsGet data 0) >>> 5) &&& 0x07 ≠ OpusCodec)
    (hs : readVarint data 1 = some (sv, n1))
    (hq : readVarint data (1 + n1) = some (qv, n2)) :
    parseAudioPacket data = some (some
      ⟨sv, ((jsGet data 0) >>> 5) &&& 0x07, (jsGet data 0) &&& 0x1f, qv,
        data.drop (1 + n1 + n2), false⟩) := by
  simp only [parseAudioPacket, hs, hq]
  rw [if_neg (by omega)]
  rw [if_neg hcodec]

/-- Witness for `parse_other_codec` on a CELT-alpha-target frame. -/
theorem parse_other_codec_witness :
    parseAudioPacket [0x20, 0x05, 0x07, 0xAB, 0xCD] =
      some (some ⟨5, 1, 0, 7, [0xAB, 0xCD], false⟩) :=
  parse_other_codec [0x20, 0x05, 0x07, 0xAB, 0xCD] 5 1 7 1
    (by decide) (by decide) (by decide) (by decide)

/-- C1 counterexample: the direct roundtrip fails.  `createAudioPacket`
omits the session varint while `parseAudioPacket` expects one, so on the
valid Opus tuple (codec 4, target 0, sequence 5, 1-byte payload, no
terminator) the parser misreads the sequence varint as the session id
and the payload byte as a length varint declaring 2560 bytes, returning
the incomplete-packet result instead of a packet with the tuple's
fields. -/
theorem create_parse_direct_fails :
    parseAudioPacket (createAudioPacket 4 0 5 [0xAA] false) = some none := by
  decide

/-- C1 amended: after inserting a varint-encoded source/session id after
the header byte (the field the server stamps on the wire, per spec §6),
parsing the built packet recovers every field of the tuple, for any
payload length up to 0x1FFF for Opus; for non-Opus codecs the terminator
flag is not encoded, so validity requires it clear. -/
theorem create_parse_roundtrip (c t s q : Nat) (p : List Nat) (b : Bool)
    (hc : c < 8) (ht : t < 32) (hs : s < 2^32) (hq : q < 2^32)
    (hp : c = OpusCodec → p.length ≤ 0x1fff)
    (hb : c ≠ OpusCodec → b = false) :
    parseAudioPacket (insertSource s (createAudioPacket c t q p b)) =
      some (some ⟨s, c, t, q, p, b⟩) := by
  have hc7 : c &&& 7 = c := by rw [and_7]; omega
  have ht31 : t &&& 31 = t := by rw [and_31]; omega
  have hheader : ((c &&& 0x07) <<< 5) ||| (t &&& 0x1f) = c * 32 + t := by
    rw [hc7, ht31, Nat.shiftLeft_eq]
    norm_num
    exact lor_eq_add (k := 5) (c*32) t (by omega) ⟨c, by ring⟩
  have h32 : (c * 32 + t) >>> 5 = (c * 32 + t) / 32 := by
    rw [Nat.shiftRight_eq_div_pow]
  have hcodec : ((c * 32 + t) >>> 5) &&& 0x07 = c := by
    rw [h32, and_7]; omega
  have htarget : (c * 32 + t) &&& 0x1f = t := by rw [and_31]; omega
  by_cases hco : c = OpusCodec
  · -- Opus branch
    set L : Nat := (p.length &&& 0x1fff) ||| (if b then 0x2000 else 0) with hLdef
    have hplen : p.length ≤ 8191 := hp hco
    have hL13 : p.length &&& 8191 = p.length := by rw [and_8191]; omega
    have hLval : L = (if b then 8192 else 0) + p.length := by
      rw [hLdef, hL13]
      cases b
      · simp
      · simp only [if_true]
        rw [Nat.lor_comm]
        rw [lor_eq_add (k := 13) 8192 p.length (by omega) ⟨1, by norm_num⟩]
    have hL32 : L < 2^32 := by rw [hLval]; cases b <;> simp <;> omega
    have hterm : (L &&& 8192 != 0) = b := by
      rw [hLval]; cases b
      · simp only [if_neg Bool.false_ne_true, Nat.zero_add]
        rw [and_8192_of_lt p.length (by omega)]
        rfl
      · simp only [if_true]
        rw [and_8192_of_add p.length (by omega)]
        rfl
    have haudio : L &&& 8191 = p.length := by
      rw [hLval, and_8191]; cases b <;> simp <;> omega
    have hdata : insertSource s (createAudioPacket c t q p b) =
        (c*32+t) :: (writeVarint s ++ ((writeVarint q ++ writeVarint L) ++ p)) := by
      simp only [createAudioPacket, if_pos hco, hheader, insertSource, hLdef]
    rw [hdata]
    have hs' : readVarint
        ((c*32+t) :: (writeVarint s ++ ((writeVarint q ++ writeVarint L) ++ p))) 1 =
        some (s, (writeVarint s).length) := by
      apply readVarint_at _ _ _ hs ((writeVarint q ++ writeVarint L) ++ p)
      rfl
    have hq' : readVarint
        ((c*32+t) :: (writeVarint s ++ ((writeVarint q ++ writeVarint L) ++ p)))
        (1 + (writeVarint s).length) =
        some (q, (writeVarint q).length) := by
      apply readVarint_at _ _ _ hq (writeVarint L ++ p)
      rw [show 1 + (writeVarint s).length = (writeVarint s).length + 1 by omega]
      rw [List.drop_succ_cons, List.drop_left, List.append_assoc]
    have hL' : readVarint
        ((c*32+t) :: (writeVarint s ++ ((writeVarint q ++ writeVarint L) ++ p)))
        (1 + (writeVarint s).length + (writeVarint q).length) =
        some (L, (writeVarint L).length) := by
      apply readVarint_at _ _ _ hL32 p
      rw [show 1 + (writeVarint s).length + (writeVarint q).length =
        (writeVarint s ++ writeVarint q).length + 1 by simp; omega]
      rw [List.drop_succ_cons]
      rw [show writeVarint s ++ ((writeVarint q ++ writeVarint L) ++ p) =
        (writeVarint s ++ writeVarint q) ++ (writeVarint L ++ p) by
          simp [List.append_assoc]]
      rw [List.drop_left]
    have hdrop3 :
        ((c*32+t) :: (writeVarint s ++ ((writeVarint q ++ writeVarint L) ++ p))).drop
          (1 + (writeVarint s).length + (writeVarint q).length +
            (writeVarint L).length) = p := by
      rw [show 1 + (writeVarint s).length + (writeVarint q).length +
        (writeVarint L).length =
        ((writeVarint s ++ writeVarint q) ++ writeVarint L).length + 1 by
          simp; omega]
      rw [List.drop_succ_cons]
      rw [show writeVarint s ++ ((writeVarint q ++ writeVarint L) ++ p) =
        ((writeVarint s ++ writeVarint q) ++ writeVarint L) ++ p by
          simp [List.append_assoc]]
      rw [List.drop_left]
    simp only [parseAudioPacket, jsGet, List.getD_cons_zero, hcodec, hs', hq', hL']
    rw [if_neg (by simp only [List.length_cons, List.length_append]; omega)]
    rw [if_pos hco]
    rw [if_neg (by
      simp only [List.length_cons, List.length_append, haudio]
      omega)]
    rw [hdrop3, haudio, List.take_length, hterm, htarget]
  · -- non-Opus branch
    have hbf : b = false := hb hco
    have hdata : insertSource s (createAudioPacket c t q p b) =
        (c*32+t) :: (writeVarint s ++ (writeVarint q ++ p)) := by
      simp only [createAudioPacket, if_neg hco, hheader, insertSource]
    rw [hdata]
    have hs' : readVarint
        ((c*32+t) :: (writeVarint s ++ (writeVarint q ++ p))) 1 =
        some (s, (writeVarint s).length) := by
      apply readVarint_at _ _ _ hs (writeVarint q ++ p)
      rfl
    have hq' : readVarint
        ((c*32+t) :: (writeVarint s ++ (writeVarint q ++ p)))
        (1 + (writeVarint s).length) =
        some (q, (writeVarint q).length) := by
      apply readVarint_at _ _ _ hq p
      rw [show 1 + (writeVarint s).length = (writeVarint s).length + 1 by omega]
      rw [List.drop_succ_cons, List.drop_left]
    have hdrop2 :
        ((c*32+t) :: (writeVarint s ++ (writeVarint q ++ p))).drop
          (1 + (writeVarint s).length + (writeVarint q).length) = p := by
      rw [show 1 + (writeVarint s).length + (writeVarint q).length =
        (writeVarint s ++ writeVarint q).length + 1 by simp; omega]
      rw [List.drop_succ_cons]
      rw [show writeVarint s ++ (writeVarint q ++ p) =
        (writeVarint s ++ writeVarint q) ++ p by simp [List.append_assoc]]
      rw [List.drop_left]
    simp only [parseAudioPacket, jsGet, List.getD_cons_zero, hcodec, hs', hq']
    rw [if_neg (by simp only [List.length_cons]; omega)]
    rw [if_neg hco]
    rw [hdrop2, htarget, hbf]

/-- Witness for `create_parse_roundtrip` on an Opus terminator frame. -/
theorem create_parse_roundtrip_witness :
    parseAudioPacket (insertSource 300 (createAudioPacket 4 5 77 [9, 9, 9] true)) =
      some (some ⟨300, 4, 5, 77, [9, 9, 9], true⟩) :=
  create_parse_roundtrip 4 5 300 77 [9, 9, 9] true (by norm_num) (by norm_num)
    (by norm_num) (by norm_num) (fun _ => by decide) (fun h => absurd rfl h)

/-- C9: every frame `MumbleAudioStream.sendAudio` writes to the socket
is the 2-byte big-endian type tag 1 (UDPTunnel), then the 4-byte
big-endian length of the built audio packet, then exactly that packet. -/
theorem sendAudio_envelope (seq codec target : Nat) (audioData : List Nat)
    (isTerminator : Bool)
    (h : (createAudioPacket codec target seq audioData isTerminator).length < 2^32) :
    sendAudioBytes seq audioData codec target isTerminator =
      0 :: 1 :: (writeUInt32BEBytes
        (createAudioPacket codec target seq audioData isTerminator).length ++
        createAudioPacket codec target seq audioData isTerminator) ∧
    beVal32 (writeUInt32BEBytes
      (createAudioPacket codec target seq audioData isTerminator).length) =
      (createAudioPacket codec target seq audioData isTerminator).length := by
  refine ⟨?_, beVal32_writeUInt32BEBytes _ h⟩
  simp [sendAudioBytes, writeUInt16BEBytes]

/-- Witness for `sendAudio_envelope` on a 3-byte Opus payload. -/
theorem sendAudio_envelope_witness :
    sendAudioBytes 7 [1, 2, 3] 4 0 false =
      0 :: 1 :: (writeUInt32BEBytes
        (createAudioPacket 4 0 7 [1, 2, 3] false).length ++
        createAudioPacket 4 0 7 [1, 2, 3] false) ∧
    beVal32 (writeUInt32BEBytes (createAudioPacket 4 0 7 [1, 2, 3] false).length) =
      (createAudioPacket 4 0 7 [1, 2, 3] false).length :=
  sendAudio_envelope 7 4 0 [1, 2, 3] false (by decide)

theorem framesFrom_length (seq : Nat) (args : List SendArgs) :
    (framesFrom seq args).length = args.length := by
  induction args generalizing seq with
  | nil => rfl
  | cons a rest ih => simp [framesFrom, ih]

theorem seqAfter_eq (seq : Nat) (args : List SendArgs) :
    seqAfter seq args = seq + args.length := by
  induction args generalizing seq with
  | nil => simp [seqAfter]
  | cons a rest ih =>
    simp only [seqAfter, ih, List.length_cons]
    omega

theorem framesFrom_get (seq : Nat) (args : List SendArgs) (n : Nat)
    (h : n < args.length) :
    (framesFrom seq args).get ⟨n, by rw [framesFrom_length]; exact h⟩ =
      sendAudioBytes (seq + n) (args.get ⟨n, h⟩).audioData
        (args.get ⟨n, h⟩).codec (args.get ⟨n, h⟩).target
        (args.get ⟨n, h⟩).isTerminator := by
  induction args generalizing seq n with
  | nil => exact absurd h (by simp)
  | cons a rest ih =>
    cases n with
    | zero => simp [framesFrom]
    | succ m =>
      have hm : m < rest.length := by simpa using h
      have := ih (seq + 1) m hm
      simp only [framesFrom, List.get_cons_succ]
      rw [this]
      congr 1
      omega

/-- C10: the outbound counter starts at 0 and increments by exactly 1
per `sendAudio` call: after a run of calls the stored sequence equals
the number of calls, and the frame written by the n-th call (counting
from 0) is built with sequence number n, whatever its codec, target,
payload and terminator arguments are. -/
theorem sendAudio_sequence_counter (args : List SendArgs) (n : Nat)
    (h : n < args.length) :
    seqAfter initialSequence args = args.length ∧
    (framesFrom initialSequence args).get
        ⟨n, by rw [framesFrom_length]; exact h⟩ =
      sendAudioBytes n (args.get ⟨n, h⟩).audioData (args.get ⟨n, h⟩).codec
        (args.get ⟨n, h⟩).target (args.get ⟨n, h⟩).isTerminator := by
  constructor
  · rw [seqAfter_eq]
    simp [initialSequence]
  · have hg := framesFrom_get initialSequence args n h
    simpa [initialSequence] using hg

/-- Witness for `sendAudio_sequence_counter`: the second of two calls
carries sequence number 1. -/
theorem sendAudio_sequence_counter_witness :
    seqAfter initialSequence [⟨[5], 4, 0, false⟩, ⟨[6], 0, 2, true⟩] = 2 ∧
    (framesFrom initialSequence [⟨[5], 4, 0, false⟩, ⟨[6], 0, 2, true⟩]).get
        ⟨1, by decide⟩ = sendAudioBytes 1 [6] 0 2 true :=
  sendAudio_sequence_counter [⟨[5], 4, 0, false⟩, ⟨[6], 0, 2, true⟩] 1
    (by decide)

end MumbleAudio

namespace VoiceChat

/-- C7 (modelled from the spec, the implementation being absent from
`src/`): for a session in the `Accumulating` state, a packet with the
terminator flag set appends its PCM, disarms the silence timer and
flushes the accumulated buffer unconditionally; the
`minSpeechDurationMs` threshold decides only whether the flushed audio
is forwarded to transcription, never whether the flush happens. -/
theorem terminator_always_flushes (cfg : SegmenterConfig) (s : SpeakerSession)
    (a : IncomingAudio) (hacc : s.accumulating = true)
    (hterm : a.isTerminator = true) :
    (handleAudioPacket cfg s a).1.timerArmed = false ∧
    (handleAudioPacket cfg s a).2 =
      some (flushSession cfg (s.pcm ++ a.pcm)) ∧
    (flushSession cfg (s.pcm ++ a.pcm)).flushedPcm = s.pcm ++ a.pcm ∧
    ((flushSession cfg (s.pcm ++ a.pcm)).forwarded = true ↔
      cfg.minSpeechDurationMs ≤ pcmDurationMs (s.pcm ++ a.pcm)) := by
  simp [handleAudioPacket, hacc, hterm, flushSession]

/-- Witness for `terminator_always_flushes`: a 3-sample utterance (far
below the 500 ms minimum) still flushes on the terminator packet. -/
theorem terminator_always_flushes_witness :
    (handleAudioPacket ⟨500, 500⟩ ⟨true, [1, 2], true⟩ ⟨[3], true⟩).2 =
      some (flushSession ⟨500, 500⟩ ([1, 2] ++ [3])) :=
  (terminator_always_flushes ⟨500, 500⟩ ⟨true, [1, 2], true⟩ ⟨[3], true⟩
    rfl rfl).2.1

end VoiceChat
